import Mathlib

/-!
# VolClock: shift clock-in routes and the weekly schedule menu

A shallow embedding of `routes/shifts.js` (the three handlers on the
`shifts` table) and of `public/js/menu-schedule.js` (`getTimeOnly` and the
sort of `onMenuSchedule`).

Conventions of the embedding.

* An instant is an `Int`: milliseconds since the epoch, the time value of a
  JavaScript `Date`.  The local zone is a fixed offset `tz` in milliseconds
  (local time = instant + `tz`).
* The `shifts` table is the list of its rows, in the order in which a query
  with no `ORDER BY` hands them back; a knex `where` chain is a `List.filter`.
* A handler reads the clock once: the instant `now` is an argument.
* A handler is a function from the store to the reply and the store it leaves.
* The clock-in route runs in two callbacks, its query and its insert; `clockIn`
  is the two run together, and `handle` runs them as separate events.
-/

namespace VolClock

/-! ## Data model -/

/-- One row of the `shifts` table. `end_time = none` is SQL `NULL`. -/
structure Shift where
  id : Nat
  user_id : Nat
  role_id : Nat
  miles : String
  start_time : Int
  end_time : Option Int
deriving DecidableEq, Repr

/-- The `shifts` table together with the counter of its serial `id` column. -/
structure Store where
  rows : List Shift
  nextId : Nat
deriving DecidableEq, Repr

/-- The body of `POST /shifts`: `user_id`, `role_id`, `miles`. -/
structure Body where
  user_id : Nat
  role_id : Nat
  miles : String
deriving DecidableEq, Repr

/-- What the handlers take from outside `routes/shifts.js`: the zone of the
server clock, the validator `chkBodyParams` of `routes/params` (its verdict on a
body), and the foreign-key constraints of the `shifts` table (whether an insert
of this `user_id` and `role_id` is accepted by the storage layer). -/
structure Env where
  tz : Int
  chkBodyParams : Body → Bool
  refOk : Nat → Nat → Bool

/-- The JSON payloads the three routes send. -/
inductive Payload where
  | current_shift (row : Shift)
  | no_current_shift (previous_shift_today : Bool)
  | shifts (rows : List Shift)
  | no_shifts (message : String)
  | shift (row : Shift)
deriving DecidableEq, Repr

/-- How a request ends: `res.status(n).json(payload)`, `next(error)` with the
error's status and message, a reply left to `chkBodyParams`, or no reply at all
(a rejected promise nobody catches). -/
inductive Response where
  | json (status : Nat) (payload : Payload)
  | error (status : Nat) (message : String)
  | rejected
  | noReply
deriving DecidableEq, Repr

/-! ## `getDateToday` -/

/-- Milliseconds in a calendar day. -/
def msPerDay : Int := 86400000

/-- The local calendar date of an instant, as a day number: what
`getFullYear()`, `getMonth()`, `getDate()` identify. -/
def localDay (tz now : Int) : Int := (now + tz) / msPerDay

/-- The instant `new Date(year, month, date)`: local midnight of that day. -/
def dateAtMidnight (tz day : Int) : Int := day * msPerDay - tz

/-- Translation of `getDateToday`: today's date with time 00:00:00. -/
def getDateToday (tz now : Int) : Int := dateAtMidnight tz (localDay tz now)

/-! ## Queries on `shifts` -/

/-- The chain `.where('user_id', u).where('start_time', '>', d).whereNull('end_time')`. -/
def openToday (d : Int) (u : Nat) (rows : List Shift) : List Shift :=
  rows.filter (fun r => r.user_id == u && decide (r.start_time > d) && r.end_time.isNone)

/-- The chain `.where('user_id', u).where('start_time', '>', d).whereNotNull('end_time')`. -/
def closedToday (d : Int) (u : Nat) (rows : List Shift) : List Shift :=
  rows.filter (fun r => r.user_id == u && decide (r.start_time > d) && r.end_time.isSome)

/-- The query `.where('user_id', u)`. -/
def ofUser (u : Nat) (rows : List Shift) : List Shift :=
  rows.filter (fun r => r.user_id == u)

/-- The open shifts of a user: rows of that user with `end_time` absent (the
glossary's notion, with no condition on `start_time`). -/
def openShifts (u : Nat) (rows : List Shift) : List Shift :=
  rows.filter (fun r => r.user_id == u && r.end_time.isNone)

/-! ## The three routes -/

/-- Translation of `GET /shifts/user/:user_id/current`. -/
def getCurrentStatus (env : Env) (now : Int) (u : Nat) (s : Store) : Response × Store :=
  match openToday (getDateToday env.tz now) u s.rows with
  | row :: _ => (Response.json 200 (Payload.current_shift row), s)
  | [] =>
    match closedToday (getDateToday env.tz now) u s.rows with
    | _ :: _ => (Response.json 200 (Payload.no_current_shift true), s)
    | [] => (Response.json 200 (Payload.no_current_shift false), s)

/-- Translation of `GET /shifts/user/:user_id`. -/
def getHistory (u : Nat) (s : Store) : Response × Store :=
  match ofUser u s.rows with
  | [] => (Response.json 200
      (Payload.no_shifts ("user " ++ toString u ++ " has no shift history")), s)
  | row :: rows => (Response.json 200 (Payload.shifts (row :: rows)), s)

/-- The `insert([oShift]).returning('*')` of the clock-in route: the serial
`id` is drawn first; the row is appended with `end_time` left `NULL` when the
foreign keys hold, and the insert fails otherwise. -/
def insertShift (env : Env) (now : Int) (body : Body) (s : Store) : Option Shift × Store :=
  if env.refOk body.user_id body.role_id then
    let row : Shift := Shift.mk s.nextId body.user_id body.role_id body.miles now none
    (some row, Store.mk (s.rows ++ [row]) (s.nextId + 1))
  else
    (none, Store.mk s.rows (s.nextId + 1))

/-- Translation of `POST /shifts` (clock-in). -/
def clockIn (env : Env) (now : Int) (body : Body) (s : Store) : Response × Store :=
  if env.chkBodyParams body then
    match openToday (getDateToday env.tz now) body.user_id s.rows with
    | row :: _ =>
      (Response.error 401
        ("unable to clock-in, already clocked in, shifts.id: " ++ toString row.id), s)
    | [] =>
      match insertShift env now body s with
      | (some row, s') => (Response.json 201 (Payload.shift row), s')
      | (none, s') => (Response.noReply, s')
  else
    (Response.rejected, s)

/-- One clock-in attempt: the instant of the request and its body. -/
structure Attempt where
  now : Int
  body : Body
deriving DecidableEq, Repr

/-- The first half of the clock-in route, run when the request arrives: the
body check and the query for an open shift of today. `some reply` ends the
request there; `none` lets the insert follow. -/
def clockInCheck (env : Env) (now : Int) (body : Body) (s : Store) : Option Response :=
  if env.chkBodyParams body then
    match openToday (getDateToday env.tz now) body.user_id s.rows with
    | row :: _ =>
      some (Response.error 401
        ("unable to clock-in, already clocked in, shifts.id: " ++ toString row.id))
    | [] => none
  else
    some Response.rejected

/-- The second half of the clock-in route, run in a later callback: the insert
of `oShift`, whose `start_time` was taken when the request arrived. -/
def clockInInsert (env : Env) (now : Int) (body : Body) (s : Store) : Response × Store :=
  match insertShift env now body s with
  | (some row, s') => (Response.json 201 (Payload.shift row), s')
  | (none, s') => (Response.noReply, s')

/-- The server between two callbacks: the table, and the clock-in requests
that have passed their check and whose insert has not run yet. -/
structure Server where
  store : Store
  pending : List Attempt
deriving DecidableEq, Repr

/-- What happens at the server: a clock-in request arrives (its check and its
query run), or the insert of the pending request number `k` runs. The route
has no transaction: other events may come between the two. -/
inductive Event where
  | arrive (a : Attempt)
  | insert (k : Nat)
deriving DecidableEq, Repr

/-- The server after one event. -/
def handle (env : Env) (sv : Server) : Event → Server
  | Event.arrive a =>
    match clockInCheck env a.now a.body sv.store with
    | some _ => sv
    | none => Server.mk sv.store (sv.pending ++ [a])
  | Event.insert k =>
    match sv.pending.get? k with
    | none => sv
    | some a => Server.mk (clockInInsert env a.now a.body sv.store).2 (sv.pending.eraseIdx k)

/-- The server after a sequence of events. -/
def runEvents (env : Env) (events : List Event) (sv : Server) : Server :=
  events.foldl (handle env) sv

/-- The events of clock-in attempts handled one after the other: each attempt
arrives and its insert runs before the next attempt arrives. -/
def serialEvents : List Attempt → List Event
  | [] => []
  | a :: rest => Event.arrive a :: Event.insert 0 :: serialEvents rest

/-! ## The schedule menu (`public/js/menu-schedule.js`) -/

/-- Milliseconds in an hour. -/
def msPerHour : Int := 3600000

/-- Milliseconds in a minute. -/
def msPerMinute : Int := 60000

/-- The local hour `getHours()` of a valid date, 0 to 23. -/
def getHours (tz ms : Int) : Int := ((ms + tz) % msPerDay) / msPerHour

/-- The local minute `getMinutes()` of a valid date, 0 to 59. -/
def getMinutes (tz ms : Int) : Int := ((ms + tz) % msPerHour) / msPerMinute

/-- Translation of `getTimeOnly`. The argument is the date `new Date(_dt)`:
`some ms` for a valid date of time value `ms`, `none` for an invalid date
(the case `isNaN(dt)`). -/
def getTimeOnly (tz : Int) (dt : Option Int) : String :=
  match dt with
  | none => "?"
  | some ms =>
    let hrs0 := getHours tz ms + 1
    let am := decide (hrs0 < 12)
    let hrs := if 12 < hrs0 then hrs0 - 12 else hrs0
    let mins := getMinutes tz ms
    toString hrs ++ ":" ++ (if mins < 10 then "0" else "") ++ toString mins
      ++ (if am then "a" else "p")

/-- The value of a `start_time` or `end_time` field of an assignment as the
JSON reply of `assignments/user/:id` carries it: a number, or the text of a
date-time (such as `2018-10-29T14:00:00.000Z`), the two forms `getTimeOnly`
is written for. -/
inductive TimeValue where
  | number (n : Int)
  | dateText (s : String)
deriving DecidableEq, Repr

/-- One assignment of the weekly schedule. -/
structure Assignment where
  dow : Int
  start_time : TimeValue
  end_time : TimeValue
  role : String
deriving DecidableEq, Repr

/-- The JavaScript difference `x - y` of two such values; `none` is `NaN`.
The text of a date-time is not a numeric literal, so it converts to `NaN`,
and so does any difference it takes part in. -/
def jsMinus : TimeValue → TimeValue → Option Int
  | TimeValue.number a, TimeValue.number b => some (a - b)
  | _, _ => none

/-- Translation of the comparator passed to `aAssignments.sort`. -/
def compareAssignments (a b : Assignment) : Option Int :=
  if a.dow ≠ b.dow then some (a.dow - b.dow) else jsMinus a.start_time b.start_time

/-- The number `Array.prototype.sort` takes from the comparator: `NaN` counts as `+0`. -/
def sortCompare (a b : Assignment) : Int := (compareAssignments a b).getD 0

/-- Whether the comparator is a consistent comparison on the elements of the
list. By its form it is antisymmetric, so what is left to ask is that
"not after" be transitive: a date-time text ties with every number of its
day, and breaks this when those numbers differ. -/
def consistentOn (l : List Assignment) : Bool :=
  l.all (fun a => l.all (fun b => l.all (fun c =>
    !(decide (sortCompare a b ≤ 0) && decide (sortCompare b c ≤ 0))
      || decide (sortCompare a c ≤ 0))))

/-- The call `aAssignments.sort(comparator)` of `onMenuSchedule`. When the
comparator is consistent on the elements, the language standard fixes the
result: the stable sorted arrangement, computed here by insertion (an element
stays ahead of a later one unless the comparator puts it after). When it is
not, the standard leaves the order to the engine, and the result is `none`. -/
def sortAssignments (l : List Assignment) : Option (List Assignment) :=
  if consistentOn l then some (l.insertionSort (fun a b => sortCompare a b ≤ 0)) else none

/-- The order the schedule is meant to have, on assignments whose `start_time`
is a number: by `dow`, and within a day by `start_time`. -/
def scheduleOrder (a b : Assignment) : Prop :=
  a.dow < b.dow ∨
    (a.dow = b.dow ∧
      ∃ m n, a.start_time = TimeValue.number m ∧ b.start_time = TimeValue.number n ∧ m ≤ n)

/-! ## Sample data -/

/-- A server on UTC whose validator and foreign keys accept every request. -/
def env0 : Env := Env.mk 0 (fun _ => true) (fun _ _ => true)

/-- 23:00 of day 0 (instants of the samples are in UTC). -/
def t2300 : Int := 82800000

/-- Midnight opening day 1. -/
def t0000 : Int := 86400000

/-- 01:00 of day 1. -/
def t0100 : Int := 90000000

/-- 09:00 of day 1. -/
def t0900 : Int := 118800000

/-- 01:00 of day 2. -/
def t2500 : Int := 176400000

/-- The request of user 7 in role 2 with 5 miles. -/
def body7 : Body := Body.mk 7 2 "5"

/-- The empty table. -/
def emptyStore : Store := Store.mk [] 1

/-- A Monday assignment from 14:00 to 16:00, its times as the text of a date-time. -/
def afternoon : Assignment :=
  Assignment.mk 1 (TimeValue.dateText "2018-10-29T14:00:00.000Z")
    (TimeValue.dateText "2018-10-29T16:00:00.000Z") "Cashier"

/-- A Monday assignment from 09:00 to 11:00, its times as the text of a date-time. -/
def morning : Assignment :=
  Assignment.mk 1 (TimeValue.dateText "2018-10-29T09:00:00.000Z")
    (TimeValue.dateText "2018-10-29T11:00:00.000Z") "Greeter"

end VolClock

namespace VolClock

/-! ## Facts about the queries and the day boundary -/

theorem mem_openToday (d : Int) (u : Nat) (rows : List Shift) (r : Shift) :
    r ∈ openToday d u rows ↔
      r ∈ rows ∧ r.user_id = u ∧ d < r.start_time ∧ r.end_time = none := by
  simp [openToday, List.mem_filter, and_assoc]

theorem mem_closedToday (d : Int) (u : Nat) (rows : List Shift) (r : Shift) :
    r ∈ closedToday d u rows ↔
      r ∈ rows ∧ r.user_id = u ∧ d < r.start_time ∧ r.end_time ≠ none := by
  simp [closedToday, List.mem_filter, and_assoc, Option.isSome_iff_ne_none]

theorem mem_ofUser (u : Nat) (rows : List Shift) (r : Shift) :
    r ∈ ofUser u rows ↔ r ∈ rows ∧ r.user_id = u := by
  simp [ofUser, List.mem_filter]

theorem mem_openShifts (u : Nat) (rows : List Shift) (r : Shift) :
    r ∈ openShifts u rows ↔ r ∈ rows ∧ r.user_id = u ∧ r.end_time = none := by
  simp [openShifts, List.mem_filter, and_assoc]

/-- Local midnight is never later than the instant it is computed from. -/
theorem getDateToday_le (tz now : Int) : getDateToday tz now ≤ now := by
  unfold getDateToday dateAtMidnight localDay msPerDay
  have h := Int.ediv_mul_le (now + tz) (show (86400000 : Int) ≠ 0 by decide)
  omega

/-- The next local midnight is later than the instant. -/
theorem lt_getDateToday_add (tz now : Int) : now < getDateToday tz now + msPerDay := by
  unfold getDateToday dateAtMidnight localDay msPerDay
  have h := Int.lt_ediv_add_one_mul_self (now + tz) (show (0 : Int) < 86400000 by decide)
  omega

/-- The day boundary moves forward with the clock. -/
theorem getDateToday_mono (tz : Int) {a b : Int} (h : a ≤ b) :
    getDateToday tz a ≤ getDateToday tz b := by
  unfold getDateToday dateAtMidnight localDay msPerDay
  have h1 : (a + tz) / 86400000 ≤ (b + tz) / 86400000 :=
    Int.ediv_le_ediv (by decide) (by omega)
  omega

/-- A later boundary selects fewer open shifts. -/
theorem openToday_length_mono {d d' : Int} (h : d ≤ d') (u : Nat) (rows : List Shift) :
    (openToday d' u rows).length ≤ (openToday d u rows).length := by
  apply List.Sublist.length_le
  apply List.monotone_filter_right
  intro r hr
  simp only [Bool.and_eq_true, decide_eq_true_eq] at hr ⊢
  exact ⟨⟨hr.1.1, by omega⟩, hr.2⟩

/-- The open shifts started after a boundary are among the open shifts. -/
theorem openToday_length_le_openShifts (d : Int) (u : Nat) (rows : List Shift) :
    (openToday d u rows).length ≤ (openShifts u rows).length := by
  apply List.Sublist.length_le
  apply List.monotone_filter_right
  intro r hr
  simp only [Bool.and_eq_true, decide_eq_true_eq] at hr ⊢
  exact ⟨hr.1.1, hr.2⟩

/-- The rows after one clock-in attempt: the old rows, plus the new row when
the request passes the checks and the insert is accepted. -/
theorem clockIn_rows (env : Env) (now : Int) (body : Body) (s : Store) :
    (clockIn env now body s).2.rows = s.rows ∨
      (openToday (getDateToday env.tz now) body.user_id s.rows = [] ∧
        (clockIn env now body s).2.rows =
          s.rows ++ [Shift.mk s.nextId body.user_id body.role_id body.miles now none]) := by
  unfold clockIn insertShift
  by_cases hv : env.chkBodyParams body = true
  · simp only [hv, if_true]
    cases hq : openToday (getDateToday env.tz now) body.user_id s.rows with
    | cons r rest => left; rfl
    | nil =>
      by_cases hr : env.refOk body.user_id body.role_id = true
      · right; simp [hr]
      · left; simp [hr]
  · left; simp [hv]

/-- One clock-in attempt keeps "at most one open shift started after `d`" for
every boundary `d` not earlier than the local midnight of the attempt. -/
theorem clockIn_keeps_openToday (env : Env) (now : Int) (body : Body) (s : Store) (d : Int)
    (hd : getDateToday env.tz now ≤ d)
    (hinv : ∀ u, (openToday d u s.rows).length ≤ 1) :
    ∀ u, (openToday d u (clockIn env now body s).2.rows).length ≤ 1 := by
  intro u
  rcases clockIn_rows env now body s with h | ⟨hq, h⟩
  · rw [h]; exact hinv u
  · rw [h]
    unfold openToday
    rw [List.filter_append, List.length_append]
    by_cases hu : body.user_id = u
    · have h0 : (openToday d u s.rows).length = 0 := by
        have h1 := openToday_length_mono hd u s.rows
        rw [← hu, hq] at h1
        rw [← hu]
        simpa using h1
      have h2 := List.length_filter_le
        (fun r : Shift => r.user_id == u && decide (r.start_time > d) && r.end_time.isNone)
        [Shift.mk s.nextId body.user_id body.role_id body.miles now none]
      unfold openToday at h0
      rw [h0]
      simpa using h2
    · have h3 : List.filter
          (fun r : Shift => r.user_id == u && decide (r.start_time > d) && r.end_time.isNone)
          [Shift.mk s.nextId body.user_id body.role_id body.miles now none] = [] := by
        simp [List.filter_cons, hu]
      rw [h3]
      simpa using hinv u

/-- The route is its check followed by its insert on the same table. -/
theorem clockIn_eq_check_insert (env : Env) (now : Int) (body : Body) (s : Store) :
    clockIn env now body s =
      match clockInCheck env now body s with
      | some reply => (reply, s)
      | none => clockInInsert env now body s := by
  unfold clockIn clockInCheck clockInInsert
  by_cases hv : env.chkBodyParams body = true
  · simp only [hv, if_true]
    cases hq : openToday (getDateToday env.tz now) body.user_id s.rows with
    | cons r rest => rfl
    | nil => rfl
  · simp [hv]

/-- An attempt that arrives at a server with nothing pending and whose insert
runs next leaves the table of the route run in one piece, and nothing pending. -/
theorem handle_arrive_insert (env : Env) (a : Attempt) (s : Store) :
    handle env (handle env (Server.mk s []) (Event.arrive a)) (Event.insert 0) =
      Server.mk (clockIn env a.now a.body s).2 [] := by
  rw [clockIn_eq_check_insert]
  unfold handle
  cases hc : clockInCheck env a.now a.body s with
  | some reply => simp [hc]
  | none => simp [hc]

/-- A serial run of clock-in attempts keeps "at most one open shift started
after `d`" when `d` is not earlier than the local midnight of any attempt, and
leaves nothing pending. -/
theorem runEvents_serial_keeps_openToday (env : Env) (d : Int) (attempts : List Attempt) :
    ∀ s : Store, (∀ a ∈ attempts, getDateToday env.tz a.now ≤ d) →
      (∀ u, (openToday d u s.rows).length ≤ 1) →
      ∀ u, (openToday d u
        (runEvents env (serialEvents attempts) (Server.mk s [])).store.rows).length ≤ 1 := by
  induction attempts with
  | nil => intro s _ hinv; simpa [runEvents, serialEvents] using hinv
  | cons a rest ih =>
    intro s hd hinv
    have hstep := clockIn_keeps_openToday env a.now a.body s d
      (hd a (List.mem_cons_self a rest)) hinv
    have hrest := ih (clockIn env a.now a.body s).2
      (fun b hb => hd b (List.mem_cons_of_mem a hb)) hstep
    have hrun : runEvents env (serialEvents (a :: rest)) (Server.mk s []) =
        runEvents env (serialEvents rest) (Server.mk (clockIn env a.now a.body s).2 []) := by
      simp only [runEvents, serialEvents, List.foldl_cons]
      rw [handle_arrive_insert]
    rw [hrun]
    exact hrest

/-! ## C1: a second clock-in while one shift is open -/

/-- C1, counterexample. User 7 has an open shift that began at 23:00 the day
before; the clock-in at 01:00 does not fail: it answers 201 and inserts a
second open row. -/
theorem clockIn_open_since_yesterday :
    openShifts 7 [Shift.mk 1 7 2 "5" t2300 none] = [Shift.mk 1 7 2 "5" t2300 none] ∧
    clockIn env0 t0100 body7 (Store.mk [Shift.mk 1 7 2 "5" t2300 none] 2) =
      (Response.json 201 (Payload.shift (Shift.mk 2 7 2 "5" t0100 none)),
        Store.mk [Shift.mk 1 7 2 "5" t2300 none, Shift.mk 2 7 2 "5" t0100 none] 3) := by
  decide

/-- C1, amended. When the request passes the body check and its user has an
open shift whose `start_time` is later than today's local midnight, the
clock-in ends in the error of status 401 whose message carries the id of
such a shift (open, of that user, started after the midnight), and the store
is left as it was. -/
theorem clockIn_already_clocked_in (env : Env) (now : Int) (body : Body) (s : Store)
    (hvalid : env.chkBodyParams body = true)
    (hopen : ∃ r ∈ s.rows, r.user_id = body.user_id ∧
      getDateToday env.tz now < r.start_time ∧ r.end_time = none) :
    ∃ r ∈ s.rows, r.user_id = body.user_id ∧ getDateToday env.tz now < r.start_time ∧
      r.end_time = none ∧
      clockIn env now body s =
        (Response.error 401
          ("unable to clock-in, already clocked in, shifts.id: " ++ toString r.id), s) := by
  obtain ⟨r0, hr0, hu0, hd0, he0⟩ := hopen
  have hmem : r0 ∈ openToday (getDateToday env.tz now) body.user_id s.rows :=
    (mem_openToday _ _ _ _).2 ⟨hr0, hu0, hd0, he0⟩
  cases hq : openToday (getDateToday env.tz now) body.user_id s.rows with
  | nil => rw [hq] at hmem; exact absurd hmem (List.not_mem_nil r0)
  | cons r rest =>
    have hr : r ∈ openToday (getDateToday env.tz now) body.user_id s.rows := by
      rw [hq]; exact List.mem_cons_self r rest
    obtain ⟨h1, h2, h3, h4⟩ := (mem_openToday _ _ _ _).1 hr
    refine ⟨r, h1, h2, h3, h4, ?_⟩
    unfold clockIn
    simp only [hvalid, if_true, hq]

/-- C1, witness: user 7, clocked in since 01:00, asks again at 09:00. -/
theorem clockIn_already_clocked_in_witness :
    env0.chkBodyParams body7 = true ∧
    (∃ r ∈ (Store.mk [Shift.mk 1 7 2 "5" t0100 none] 2).rows, r.user_id = body7.user_id ∧
      getDateToday env0.tz t0900 < r.start_time ∧ r.end_time = none) ∧
    (∃ r ∈ (Store.mk [Shift.mk 1 7 2 "5" t0100 none] 2).rows, r.user_id = body7.user_id ∧
      getDateToday env0.tz t0900 < r.start_time ∧ r.end_time = none ∧
      clockIn env0 t0900 body7 (Store.mk [Shift.mk 1 7 2 "5" t0100 none] 2) =
        (Response.error 401
          ("unable to clock-in, already clocked in, shifts.id: " ++ toString r.id),
          Store.mk [Shift.mk 1 7 2 "5" t0100 none] 2)) :=
  ⟨by decide, by decide,
    clockIn_already_clocked_in env0 t0900 body7 (Store.mk [Shift.mk 1 7 2 "5" t0100 none] 2)
      (by decide) (by decide)⟩

/-! ## C2: at most one open shift per user -/

/-- C2, counterexample. From the empty table, user 7 clocks in at 23:00 and
again at 01:00 the next day, one attempt after the other: both succeed and
the user has two shifts with `end_time` absent. And when two attempts of
user 7 of the same morning overlap, the second arriving before the insert of
the first has run, both pass the check and the user has two open shifts of
that day. -/
theorem runEvents_two_open_shifts :
    (∀ u, (openShifts u emptyStore.rows).length ≤ 1) ∧
    t2300 ≤ t0100 ∧
    (openShifts 7
      (runEvents env0 (serialEvents [Attempt.mk t2300 body7, Attempt.mk t0100 body7])
        (Server.mk emptyStore [])).store.rows).length = 2 ∧
    t0900 ≤ t0900 + 5 ∧
    (openToday (getDateToday env0.tz (t0900 + 5)) 7
      (runEvents env0
        [Event.arrive (Attempt.mk t0900 body7), Event.arrive (Attempt.mk (t0900 + 5) body7),
          Event.insert 0, Event.insert 0]
        (Server.mk emptyStore [])).store.rows).length = 2 := by
  refine ⟨fun u => by simp [openShifts, emptyStore], by decide, by decide, by decide, by decide⟩

/-- C2, amended. From a store in which every user has at most one open shift,
after any finite run of clock-in attempts at non-decreasing instants, handled
one after the other (the insert of each attempt runs before the next attempt
arrives), every user has at most one open shift whose `start_time` is later
than the local midnight of the day of the last attempt. -/
theorem runEvents_serial_one_open_today (env : Env) (attempts : List Attempt)
    (last : Attempt) (s : Store)
    (hI1 : ∀ u, (openShifts u s.rows).length ≤ 1)
    (hmono : List.Sorted (fun a b : Attempt => a.now ≤ b.now) (attempts ++ [last])) :
    ∀ u, (openToday (getDateToday env.tz last.now) u
      (runEvents env (serialEvents (attempts ++ [last])) (Server.mk s [])).store.rows).length
      ≤ 1 := by
  apply runEvents_serial_keeps_openToday
  · intro a ha
    apply getDateToday_mono
    rcases List.mem_append.1 ha with h | h
    · have hp := List.pairwise_append.1 hmono
      exact hp.2.2 a h last (List.mem_singleton_self last)
    · rw [List.mem_singleton.1 h]
  · intro u
    exact le_trans (openToday_length_le_openShifts _ u s.rows) (hI1 u)

/-- C2, witness: user 7 at 01:00 and at 09:00, user 8 at 09:00, one after the
other, from the empty table. -/
theorem runEvents_serial_one_open_today_witness :
    (∀ u, (openShifts u emptyStore.rows).length ≤ 1) ∧
    List.Sorted (fun a b : Attempt => a.now ≤ b.now)
      ([Attempt.mk t0100 body7, Attempt.mk t0900 body7] ++ [Attempt.mk t0900 (Body.mk 8 2 "")]) ∧
    (∀ u, (openToday (getDateToday env0.tz (Attempt.mk t0900 (Body.mk 8 2 "")).now) u
      (runEvents env0
        (serialEvents
          ([Attempt.mk t0100 body7, Attempt.mk t0900 body7] ++
            [Attempt.mk t0900 (Body.mk 8 2 "")]))
        (Server.mk emptyStore [])).store.rows).length ≤ 1) :=
  ⟨fun u => by simp [openShifts, emptyStore], by decide,
    runEvents_serial_one_open_today env0 [Attempt.mk t0100 body7, Attempt.mk t0900 body7]
      (Attempt.mk t0900 (Body.mk 8 2 "")) emptyStore
      (fun u => by simp [openShifts, emptyStore]) (by decide)⟩

/-! ## C3: a successful clock-in -/

/-- C3. When the request passes the body check, its foreign keys hold, and the
store has no row of its user with `start_time` after today's local midnight
and `end_time` absent, the clock-in answers 201 with the created record, and
the new table is the old one followed by exactly that record, whose
`user_id`, `role_id` and `miles` are the inputs, whose `start_time` is `now`
and whose `end_time` is absent. -/
theorem clockIn_success (env : Env) (now : Int) (body : Body) (s : Store)
    (hvalid : env.chkBodyParams body = true)
    (href : env.refOk body.user_id body.role_id = true)
    (hnone : ∀ r ∈ s.rows, r.user_id = body.user_id →
      getDateToday env.tz now < r.start_time → r.end_time ≠ none) :
    ∃ row : Shift,
      row.user_id = body.user_id ∧ row.role_id = body.role_id ∧ row.miles = body.miles ∧
      row.start_time = now ∧ row.end_time = none ∧
      (clockIn env now body s).1 = Response.json 201 (Payload.shift row) ∧
      (clockIn env now body s).2.rows = s.rows ++ [row] := by
  have hq : openToday (getDateToday env.tz now) body.user_id s.rows = [] := by
    apply List.eq_nil_iff_forall_not_mem.2
    intro r hr
    obtain ⟨h1, h2, h3, h4⟩ := (mem_openToday _ _ _ _).1 hr
    exact hnone r h1 h2 h3 h4
  refine ⟨Shift.mk s.nextId body.user_id body.role_id body.miles now none,
    rfl, rfl, rfl, rfl, rfl, ?_, ?_⟩
  · unfold clockIn insertShift
    simp only [hvalid, if_true, hq, href]
  · unfold clockIn insertShift
    simp only [hvalid, if_true, hq, href]

/-- C3, witness: user 7 clocks in at 09:00 while user 8 is clocked in and
user 7 has a closed shift of the morning and an open one of the day before. -/
theorem clockIn_success_witness :
    env0.chkBodyParams body7 = true ∧
    env0.refOk body7.user_id body7.role_id = true ∧
    (∀ r ∈ (Store.mk [Shift.mk 1 7 2 "5" t2300 none, Shift.mk 2 8 2 "" t0100 none,
        Shift.mk 3 7 2 "5" t0100 (some t0900)] 4).rows, r.user_id = body7.user_id →
      getDateToday env0.tz t0900 < r.start_time → r.end_time ≠ none) ∧
    (∃ row : Shift,
      row.user_id = body7.user_id ∧ row.role_id = body7.role_id ∧ row.miles = body7.miles ∧
      row.start_time = t0900 ∧ row.end_time = none ∧
      (clockIn env0 t0900 body7 (Store.mk [Shift.mk 1 7 2 "5" t2300 none,
        Shift.mk 2 8 2 "" t0100 none, Shift.mk 3 7 2 "5" t0100 (some t0900)] 4)).1 =
        Response.json 201 (Payload.shift row) ∧
      (clockIn env0 t0900 body7 (Store.mk [Shift.mk 1 7 2 "5" t2300 none,
        Shift.mk 2 8 2 "" t0100 none, Shift.mk 3 7 2 "5" t0100 (some t0900)] 4)).2.rows =
        (Store.mk [Shift.mk 1 7 2 "5" t2300 none, Shift.mk 2 8 2 "" t0100 none,
          Shift.mk 3 7 2 "5" t0100 (some t0900)] 4).rows ++ [row]) :=
  ⟨by decide, by decide, by decide,
    clockIn_success env0 t0900 body7 (Store.mk [Shift.mk 1 7 2 "5" t2300 none,
      Shift.mk 2 8 2 "" t0100 none, Shift.mk 3 7 2 "5" t0100 (some t0900)] 4)
      (by decide) (by decide) (by decide)⟩

/-! ## C4: the three answers of the current-status route -/

/-- The current-status route leaves the store as it was. -/
theorem getCurrentStatus_store (env : Env) (now : Int) (u : Nat) (s : Store) :
    (getCurrentStatus env now u s).2 = s := by
  unfold getCurrentStatus
  split
  · rfl
  · split <;> rfl

/-- The history route leaves the store as it was. -/
theorem getHistory_store (u : Nat) (s : Store) : (getHistory u s).2 = s := by
  unfold getHistory
  split <;> rfl

/-- The reply of the current-status route, by cases on its two queries. -/
theorem getCurrentStatus_reply (env : Env) (now : Int) (u : Nat) (s : Store) :
    (∃ row rest, openToday (getDateToday env.tz now) u s.rows = row :: rest ∧
      (getCurrentStatus env now u s).1 = Response.json 200 (Payload.current_shift row)) ∨
    (openToday (getDateToday env.tz now) u s.rows = [] ∧
      closedToday (getDateToday env.tz now) u s.rows ≠ [] ∧
      (getCurrentStatus env now u s).1 = Response.json 200 (Payload.no_current_shift true)) ∨
    (openToday (getDateToday env.tz now) u s.rows = [] ∧
      closedToday (getDateToday env.tz now) u s.rows = [] ∧
      (getCurrentStatus env now u s).1 = Response.json 200 (Payload.no_current_shift false)) := by
  unfold getCurrentStatus
  cases ho : openToday (getDateToday env.tz now) u s.rows with
  | cons row rest => left; exact ⟨row, rest, rfl, rfl⟩
  | nil =>
    right
    cases hc : closedToday (getDateToday env.tz now) u s.rows with
    | cons row rest => left; exact ⟨rfl, by simp, rfl⟩
    | nil => right; exact ⟨rfl, rfl, rfl⟩

/-- A query result is empty exactly when no row meets its conditions. -/
theorem openToday_eq_nil (d : Int) (u : Nat) (rows : List Shift) :
    openToday d u rows = [] ↔
      ¬ ∃ r ∈ rows, r.user_id = u ∧ d < r.start_time ∧ r.end_time = none := by
  rw [List.eq_nil_iff_forall_not_mem]
  constructor
  · rintro h ⟨r, h1, h2, h3, h4⟩
    exact h r ((mem_openToday _ _ _ _).2 ⟨h1, h2, h3, h4⟩)
  · intro h r hr
    obtain ⟨h1, h2, h3, h4⟩ := (mem_openToday _ _ _ _).1 hr
    exact h ⟨r, h1, h2, h3, h4⟩

/-- The same for the query on closed shifts. -/
theorem closedToday_eq_nil (d : Int) (u : Nat) (rows : List Shift) :
    closedToday d u rows = [] ↔
      ¬ ∃ r ∈ rows, r.user_id = u ∧ d < r.start_time ∧ r.end_time ≠ none := by
  rw [List.eq_nil_iff_forall_not_mem]
  constructor
  · rintro h ⟨r, h1, h2, h3, h4⟩
    exact h r ((mem_closedToday _ _ _ _).2 ⟨h1, h2, h3, h4⟩)
  · intro h r hr
    obtain ⟨h1, h2, h3, h4⟩ := (mem_closedToday _ _ _ _).1 hr
    exact h ⟨r, h1, h2, h3, h4⟩

/-- C4. The current-status route answers 200 with exactly one of three
results: a shift record, exactly when the user has a row with `start_time`
after today's local midnight and `end_time` absent (the record is such a
row); no current shift and `previous_shift_today = true`, exactly when there
is no such open row but a row with `start_time` after the midnight and
`end_time` set; no current shift and `previous_shift_today = false`, exactly
when there is neither. -/
theorem getCurrentStatus_classifies (env : Env) (now : Int) (u : Nat) (s : Store) :
    ((∃ row, (getCurrentStatus env now u s).1 = Response.json 200 (Payload.current_shift row)) ∨
      (getCurrentStatus env now u s).1 = Response.json 200 (Payload.no_current_shift true) ∨
      (getCurrentStatus env now u s).1 = Response.json 200 (Payload.no_current_shift false)) ∧
    ((∃ row, (getCurrentStatus env now u s).1 = Response.json 200 (Payload.current_shift row)) ↔
      ∃ r ∈ s.rows, r.user_id = u ∧ getDateToday env.tz now < r.start_time ∧
        r.end_time = none) ∧
    (∀ row, (getCurrentStatus env now u s).1 = Response.json 200 (Payload.current_shift row) →
      row ∈ s.rows ∧ row.user_id = u ∧ getDateToday env.tz now < row.start_time ∧
        row.end_time = none) ∧
    ((getCurrentStatus env now u s).1 = Response.json 200 (Payload.no_current_shift true) ↔
      (¬ ∃ r ∈ s.rows, r.user_id = u ∧ getDateToday env.tz now < r.start_time ∧
        r.end_time = none) ∧
      ∃ r ∈ s.rows, r.user_id = u ∧ getDateToday env.tz now < r.start_time ∧
        r.end_time ≠ none) ∧
    ((getCurrentStatus env now u s).1 = Response.json 200 (Payload.no_current_shift false) ↔
      (¬ ∃ r ∈ s.rows, r.user_id = u ∧ getDateToday env.tz now < r.start_time ∧
        r.end_time = none) ∧
      ¬ ∃ r ∈ s.rows, r.user_id = u ∧ getDateToday env.tz now < r.start_time ∧
        r.end_time ≠ none) := by
  have ho := openToday_eq_nil (getDateToday env.tz now) u s.rows
  have hc := closedToday_eq_nil (getDateToday env.tz now) u s.rows
  rcases getCurrentStatus_reply env now u s with
    ⟨row, rest, hq, hr⟩ | ⟨hq, hq', hr⟩ | ⟨hq, hq', hr⟩
  · have hmem : row ∈ openToday (getDateToday env.tz now) u s.rows := by
      rw [hq]; exact List.mem_cons_self row rest
    have hrow := (mem_openToday _ _ _ _).1 hmem
    have hex : ∃ r ∈ s.rows, r.user_id = u ∧ getDateToday env.tz now < r.start_time ∧
        r.end_time = none := ⟨row, hrow⟩
    rw [hr]
    refine ⟨Or.inl ⟨row, rfl⟩, ⟨fun _ => hex, fun _ => ⟨row, rfl⟩⟩, ?_, ?_, ?_⟩
    · intro row' h
      have : row = row' := by injection h with _ h2; injection h2
      rw [← this]; exact hrow
    · exact ⟨fun h => by simp at h, fun h => absurd hex h.1⟩
    · exact ⟨fun h => by simp at h, fun h => absurd hex h.1⟩
  · have hno := ho.1 hq
    have hcl : ∃ r ∈ s.rows, r.user_id = u ∧ getDateToday env.tz now < r.start_time ∧
        r.end_time ≠ none := by
      by_contra hcon
      exact hq' (hc.2 hcon)
    rw [hr]
    refine ⟨Or.inr (Or.inl rfl), ⟨fun h => ?_, fun h => absurd h hno⟩, ?_, ?_, ?_⟩
    · obtain ⟨row, h⟩ := h; simp at h
    · intro row h; simp at h
    · exact ⟨fun _ => ⟨hno, hcl⟩, fun _ => rfl⟩
    · exact ⟨fun h => by simp at h, fun h => absurd hcl h.2⟩
  · have hno := ho.1 hq
    have hncl := hc.1 hq'
    rw [hr]
    refine ⟨Or.inr (Or.inr rfl), ⟨fun h => ?_, fun h => absurd h hno⟩, ?_, ?_, ?_⟩
    · obtain ⟨row, h⟩ := h; simp at h
    · intro row h; simp at h
    · exact ⟨fun h => by simp at h, fun h => absurd h.2 hncl⟩
    · exact ⟨fun _ => ⟨hno, hncl⟩, fun _ => rfl⟩

/-! ## C5: the history route -/

/-- C5. The history route answers 200 in both cases: with the no-history
marker exactly when the store has no row of the user, and otherwise with the
rows of the store whose `user_id` is the user, every one of them and no
other. -/
theorem getHistory_rows (u : Nat) (s : Store) :
    ((∃ msg, (getHistory u s).1 = Response.json 200 (Payload.no_shifts msg)) ↔
      ∀ r ∈ s.rows, r.user_id ≠ u) ∧
    ((getHistory u s).1 =
        Response.json 200 (Payload.no_shifts ("user " ++ toString u ++ " has no shift history")) ∨
      (getHistory u s).1 = Response.json 200 (Payload.shifts (ofUser u s.rows))) ∧
    (∀ r, r ∈ ofUser u s.rows ↔ r ∈ s.rows ∧ r.user_id = u) ∧
    ((∃ r ∈ s.rows, r.user_id = u) ↔
      (getHistory u s).1 = Response.json 200 (Payload.shifts (ofUser u s.rows))) := by
  have hmem := mem_ofUser u s.rows
  unfold getHistory
  cases hq : ofUser u s.rows with
  | nil =>
    have hnone : ∀ r ∈ s.rows, r.user_id ≠ u := by
      intro r hr hu
      have := (hmem r).2 ⟨hr, hu⟩
      rw [hq] at this
      exact absurd this (List.not_mem_nil r)
    refine ⟨⟨fun _ => hnone, fun _ => ⟨_, rfl⟩⟩, Or.inl rfl, ?_, ?_⟩
    · intro r; rw [← hq]; exact hmem r
    · constructor
      · rintro ⟨r, hr, hu⟩; exact absurd hu (hnone r hr)
      · intro h; simp at h
  | cons row rest =>
    have hrow : row ∈ s.rows ∧ row.user_id = u := by
      apply (hmem row).1; rw [hq]; exact List.mem_cons_self row rest
    refine ⟨⟨fun h => ?_, fun h => absurd hrow.2 (h row hrow.1)⟩, Or.inr rfl, ?_, ?_⟩
    · obtain ⟨msg, h⟩ := h; simp at h
    · intro r; rw [← hq]; exact hmem r
    · exact ⟨fun _ => rfl, fun _ => ⟨row, hrow⟩⟩

/-! ## C6: the status after a clock-in -/

/-- C6, amended. When a clock-in succeeds at an instant `t` strictly later than
the local midnight of its day, the current-status route, asked for the same
user at any instant of the same local calendar day with the store as the
clock-in left it, returns the clocked-in state whose shift record is the one
just created (`start_time = t`, `end_time` absent). -/
theorem getCurrentStatus_after_clockIn (env : Env) (t t' : Int) (body : Body) (s : Store)
    (row : Shift)
    (hok : (clockIn env t body s).1 = Response.json 201 (Payload.shift row))
    (hday : localDay env.tz t' = localDay env.tz t)
    (hlate : getDateToday env.tz t < t) :
    row.start_time = t ∧ row.end_time = none ∧
    (getCurrentStatus env t' body.user_id (clockIn env t body s).2).1 =
      Response.json 200 (Payload.current_shift row) := by
  have hd : getDateToday env.tz t' = getDateToday env.tz t := by
    unfold getDateToday; rw [hday]
  unfold clockIn insertShift at hok ⊢
  by_cases hv : env.chkBodyParams body = true
  · simp only [hv, if_true] at hok ⊢
    cases hq : openToday (getDateToday env.tz t) body.user_id s.rows with
    | cons r rest => simp [hq] at hok
    | nil =>
      by_cases hr : env.refOk body.user_id body.role_id = true
      · simp only [hq, hr, if_true] at hok ⊢
        have hrow : Shift.mk s.nextId body.user_id body.role_id body.miles t none = row := by
          injection hok with _ h2; injection h2
        subst hrow
        refine ⟨rfl, rfl, ?_⟩
        unfold getCurrentStatus
        have hq2 : openToday (getDateToday env.tz t') body.user_id
            (s.rows ++ [Shift.mk s.nextId body.user_id body.role_id body.miles t none]) =
            [Shift.mk s.nextId body.user_id body.role_id body.miles t none] := by
          rw [hd]
          unfold openToday at hq ⊢
          rw [List.filter_append, hq]
          simp [List.filter_cons, hlate]
        simp only [hq2]
      · simp [hq, hr] at hok
  · simp [hv] at hok

/-- C6, counterexample. User 7 clocks in at the very instant of local
midnight (the clock-in succeeds and creates shift 1, open); at 09:00 of the
same day, with nothing written in between, the current-status route reports
no current shift and no previous shift today: the queries take the shifts
started strictly after midnight. -/
theorem getCurrentStatus_misses_midnight_clockIn :
    clockIn env0 t0000 body7 emptyStore =
      (Response.json 201 (Payload.shift (Shift.mk 1 7 2 "5" t0000 none)),
        Store.mk [Shift.mk 1 7 2 "5" t0000 none] 2) ∧
    localDay env0.tz t0900 = localDay env0.tz t0000 ∧ t0000 ≤ t0900 ∧
    getCurrentStatus env0 t0900 7 (Store.mk [Shift.mk 1 7 2 "5" t0000 none] 2) =
      (Response.json 200 (Payload.no_current_shift false),
        Store.mk [Shift.mk 1 7 2 "5" t0000 none] 2) := by
  decide

/-- C6, witness: user 7 clocks in at 01:00 and asks at 09:00 of the same day. -/
theorem getCurrentStatus_after_clockIn_witness :
    (clockIn env0 t0100 body7 emptyStore).1 =
      Response.json 201 (Payload.shift (Shift.mk 1 7 2 "5" t0100 none)) ∧
    localDay env0.tz t0900 = localDay env0.tz t0100 ∧
    getDateToday env0.tz t0100 < t0100 ∧
    ((Shift.mk 1 7 2 "5" t0100 none).start_time = t0100 ∧
      (Shift.mk 1 7 2 "5" t0100 none).end_time = none ∧
      (getCurrentStatus env0 t0900 body7.user_id (clockIn env0 t0100 body7 emptyStore).2).1 =
        Response.json 200 (Payload.current_shift (Shift.mk 1 7 2 "5" t0100 none))) :=
  ⟨by decide, by decide, by decide,
    getCurrentStatus_after_clockIn env0 t0100 t0900 body7 emptyStore
      (Shift.mk 1 7 2 "5" t0100 none) (by decide) (by decide) (by decide)⟩

/-! ## C7: the two reads -/

/-- C7, counterexample. Shift 1 of user 7 is open since 01:00 of day 1 and
nothing is written: the current-status route answers with the shift at 09:00
of day 1 and with "no current shift" at 01:00 of day 2. -/
theorem getCurrentStatus_changes_overnight :
    getCurrentStatus env0 t0900 7 (Store.mk [Shift.mk 1 7 2 "5" t0100 none] 2) =
      (Response.json 200 (Payload.current_shift (Shift.mk 1 7 2 "5" t0100 none)),
        Store.mk [Shift.mk 1 7 2 "5" t0100 none] 2) ∧
    getCurrentStatus env0 t2500 7 (Store.mk [Shift.mk 1 7 2 "5" t0100 none] 2) =
      (Response.json 200 (Payload.no_current_shift false),
        Store.mk [Shift.mk 1 7 2 "5" t0100 none] 2) := by
  decide

/-- C7, amended. Neither read changes the store; the history route called
twice with no write in between gives the same reply, and so does the
current-status route when the two calls fall on the same local calendar
day. -/
theorem reads_repeatable (env : Env) (now now' : Int) (u : Nat) (s : Store)
    (hday : localDay env.tz now' = localDay env.tz now) :
    (getCurrentStatus env now u s).2 = s ∧
    (getHistory u s).2 = s ∧
    (getCurrentStatus env now' u (getCurrentStatus env now u s).2).1 =
      (getCurrentStatus env now u s).1 ∧
    (getHistory u (getHistory u s).2).1 = (getHistory u s).1 := by
  refine ⟨getCurrentStatus_store env now u s, getHistory_store u s, ?_, ?_⟩
  · rw [getCurrentStatus_store]
    unfold getCurrentStatus getDateToday
    rw [hday]
  · rw [getHistory_store]

/-- C7, witness: the two reads at 01:00 and at 09:00 of day 1. -/
theorem reads_repeatable_witness :
    localDay env0.tz t0900 = localDay env0.tz t0100 ∧
    ((getCurrentStatus env0 t0100 7 (Store.mk [Shift.mk 1 7 2 "5" t0100 none] 2)).2 =
      Store.mk [Shift.mk 1 7 2 "5" t0100 none] 2 ∧
    (getHistory 7 (Store.mk [Shift.mk 1 7 2 "5" t0100 none] 2)).2 =
      Store.mk [Shift.mk 1 7 2 "5" t0100 none] 2 ∧
    (getCurrentStatus env0 t0900 7
      (getCurrentStatus env0 t0100 7 (Store.mk [Shift.mk 1 7 2 "5" t0100 none] 2)).2).1 =
      (getCurrentStatus env0 t0100 7 (Store.mk [Shift.mk 1 7 2 "5" t0100 none] 2)).1 ∧
    (getHistory 7 (getHistory 7 (Store.mk [Shift.mk 1 7 2 "5" t0100 none] 2)).2).1 =
      (getHistory 7 (Store.mk [Shift.mk 1 7 2 "5" t0100 none] 2)).1) :=
  ⟨by decide,
    reads_repeatable env0 t0100 t0900 7 (Store.mk [Shift.mk 1 7 2 "5" t0100 none] 2)
      (by decide)⟩

/-! ## C8: the status of a user who is clocked in -/

/-- C8, counterexample. User 7 has an open shift that began at 23:00 the day
before; at 09:00 the current-status route returns no shift record. -/
theorem getCurrentStatus_open_since_yesterday :
    openShifts 7 [Shift.mk 1 7 2 "5" t2300 none] = [Shift.mk 1 7 2 "5" t2300 none] ∧
    getCurrentStatus env0 t0900 7 (Store.mk [Shift.mk 1 7 2 "5" t2300 none] 2) =
      (Response.json 200 (Payload.no_current_shift false),
        Store.mk [Shift.mk 1 7 2 "5" t2300 none] 2) := by
  decide

/-- C8, amended. When the store holds a shift of the user with `end_time`
absent and `start_time` later than today's local midnight, the
current-status route returns a shift record, and that record is an open
shift of that user (started after the midnight). -/
theorem getCurrentStatus_clocked_in (env : Env) (now : Int) (u : Nat) (s : Store)
    (hopen : ∃ r ∈ s.rows, r.user_id = u ∧ getDateToday env.tz now < r.start_time ∧
      r.end_time = none) :
    ∃ row ∈ s.rows, row.user_id = u ∧ row.end_time = none ∧
      getDateToday env.tz now < row.start_time ∧
      (getCurrentStatus env now u s).1 = Response.json 200 (Payload.current_shift row) := by
  rcases getCurrentStatus_reply env now u s with
    ⟨row, rest, hq, hr⟩ | ⟨hq, _, _⟩ | ⟨hq, _, _⟩
  · have hmem : row ∈ openToday (getDateToday env.tz now) u s.rows := by
      rw [hq]; exact List.mem_cons_self row rest
    obtain ⟨h1, h2, h3, h4⟩ := (mem_openToday _ _ _ _).1 hmem
    exact ⟨row, h1, h2, h4, h3, hr⟩
  · exact absurd hopen ((openToday_eq_nil _ _ _).1 hq)
  · exact absurd hopen ((openToday_eq_nil _ _ _).1 hq)

/-- C8, witness: user 7, clocked in since 01:00, asks at 09:00; user 8 is
clocked in as well and comes first in the table. -/
theorem getCurrentStatus_clocked_in_witness :
    (∃ r ∈ (Store.mk [Shift.mk 1 8 2 "" t0100 none, Shift.mk 2 7 2 "5" t0100 none] 3).rows,
      r.user_id = 7 ∧ getDateToday env0.tz t0900 < r.start_time ∧ r.end_time = none) ∧
    (∃ row ∈ (Store.mk [Shift.mk 1 8 2 "" t0100 none, Shift.mk 2 7 2 "5" t0100 none] 3).rows,
      row.user_id = 7 ∧ row.end_time = none ∧
      getDateToday env0.tz t0900 < row.start_time ∧
      (getCurrentStatus env0 t0900 7
        (Store.mk [Shift.mk 1 8 2 "" t0100 none, Shift.mk 2 7 2 "5" t0100 none] 3)).1 =
        Response.json 200 (Payload.current_shift row)) :=
  ⟨by decide,
    getCurrentStatus_clocked_in env0 t0900 7
      (Store.mk [Shift.mk 1 8 2 "" t0100 none, Shift.mk 2 7 2 "5" t0100 none] 3) (by decide)⟩

/-! ## C9: the sort of the schedule -/

/-- The comparator on two assignments whose `start_time` is a number. -/
theorem sortCompare_number (a b : Assignment) (m n : Int)
    (ha : a.start_time = TimeValue.number m) (hb : b.start_time = TimeValue.number n) :
    sortCompare a b = if a.dow ≠ b.dow then a.dow - b.dow else m - n := by
  unfold sortCompare compareAssignments
  by_cases h : a.dow ≠ b.dow
  · simp [h]
  · simp [h, ha, hb, jsMinus]

/-- Two assignments with the same `dow` and the same `start_time` tie. -/
theorem sortCompare_tie (a b : Assignment) (hd : a.dow = b.dow)
    (ht : a.start_time = b.start_time) : sortCompare a b = 0 := by
  unfold sortCompare compareAssignments
  simp only [hd, ne_eq, not_true_eq_false, if_false, ht]
  cases b.start_time with
  | number n => simp [jsMinus]
  | dateText t => simp [jsMinus]

/-- What the sort returns, when the standard fixes it. -/
theorem sortAssignments_eq_some (l r : List Assignment) (h : sortAssignments l = some r) :
    r = l.insertionSort (fun a b => sortCompare a b ≤ 0) := by
  unfold sortAssignments at h
  by_cases hc : consistentOn l = true
  · simp only [hc, if_true] at h
    injection h with h
    exact h.symm
  · simp [hc] at h

/-- The sort rearranges the list and loses or adds nothing. -/
theorem sortAssignments_perm (l r : List Assignment) (h : sortAssignments l = some r) :
    r.Perm l := by
  rw [sortAssignments_eq_some l r h]
  exact List.perm_insertionSort _ l

/-- Inserting an assignment puts it ahead of the assignments with its own
`dow` and `start_time`. -/
theorem filter_orderedInsert (d : Int) (t : TimeValue) (a : Assignment) (l : List Assignment) :
    (List.orderedInsert (fun a b => sortCompare a b ≤ 0) a l).filter
        (fun x => decide (x.dow = d) && decide (x.start_time = t)) =
      (a :: l).filter (fun x => decide (x.dow = d) && decide (x.start_time = t)) := by
  induction l with
  | nil => simp
  | cons b l ih =>
    simp only [List.orderedInsert]
    by_cases h : sortCompare a b ≤ 0
    · simp only [h, if_true]
    · simp only [h, if_false]
      rw [List.filter_cons, ih]
      by_cases ha : (decide (a.dow = d) && decide (a.start_time = t)) = true
      · have hb : (decide (b.dow = d) && decide (b.start_time = t)) = false := by
          by_contra hb
          simp only [Bool.not_eq_false, Bool.and_eq_true, decide_eq_true_eq] at hb ha
          have := sortCompare_tie a b (ha.1.trans hb.1.symm) (ha.2.trans hb.2.symm)
          omega
        simp [List.filter_cons, hb]
      · simp [List.filter_cons, ha]

/-- The insertion arrangement keeps the assignments of one `dow` and one
`start_time` in their order. -/
theorem filter_insertionSort (d : Int) (t : TimeValue) (l : List Assignment) :
    (l.insertionSort (fun a b => sortCompare a b ≤ 0)).filter
        (fun x => decide (x.dow = d) && decide (x.start_time = t)) =
      l.filter (fun x => decide (x.dow = d) && decide (x.start_time = t)) := by
  induction l with
  | nil => rfl
  | cons a l ih =>
    rw [List.insertionSort, filter_orderedInsert, List.filter_cons, List.filter_cons, ih]

/-- The sort is stable: the assignments of one `dow` and one `start_time` keep
their order. -/
theorem sortAssignments_stable (d : Int) (t : TimeValue) (l r : List Assignment)
    (h : sortAssignments l = some r) :
    r.filter (fun x => decide (x.dow = d) && decide (x.start_time = t)) =
      l.filter (fun x => decide (x.dow = d) && decide (x.start_time = t)) := by
  rw [sortAssignments_eq_some l r h]
  exact filter_insertionSort d t l

/-- Inserting into a list in schedule order keeps the order, when every
`start_time` involved is a number. -/
theorem sorted_orderedInsert_number (a : Assignment) (l : List Assignment)
    (ha : ∃ n, a.start_time = TimeValue.number n)
    (hl : ∀ b ∈ l, ∃ n, b.start_time = TimeValue.number n)
    (hs : l.Sorted scheduleOrder) :
    (List.orderedInsert (fun a b => sortCompare a b ≤ 0) a l).Sorted scheduleOrder := by
  induction l with
  | nil => simp
  | cons b l ih =>
    obtain ⟨m, hm⟩ := ha
    obtain ⟨n, hn⟩ := hl b (List.mem_cons_self b l)
    have hcmp := sortCompare_number a b m n hm hn
    have hsb := List.sorted_cons.1 hs
    simp only [List.orderedInsert]
    by_cases h : sortCompare a b ≤ 0
    · simp only [h, if_true]
      have hab : scheduleOrder a b := by
        rw [hcmp] at h
        by_cases hd : a.dow = b.dow
        · right
          simp only [hd, ne_eq, not_true_eq_false, if_false] at h
          exact ⟨hd, m, n, hm, hn, by omega⟩
        · left
          simp only [ne_eq, hd, not_false_eq_true, if_true] at h
          omega
      apply List.sorted_cons.2
      refine ⟨?_, hs⟩
      intro c hc
      rcases List.mem_cons.1 hc with hcb | hcl
      · rw [hcb]; exact hab
      · have hbc := hsb.1 c hcl
        rcases hab with h1 | ⟨h1, m1, n1, hm1, hn1, hle1⟩
        · rcases hbc with h2 | ⟨h2, _⟩
          · left; omega
          · left; omega
        · rcases hbc with h2 | ⟨h2, m2, n2, hm2, hn2, hle2⟩
          · left; omega
          · right
            have : n1 = m2 := by rw [hn1] at hm2; injection hm2
            exact ⟨h1.trans h2, m1, n2, hm1, hn2, by omega⟩
    · simp only [h, if_false]
      have hba : scheduleOrder b a := by
        rw [hcmp] at h
        by_cases hd : a.dow = b.dow
        · right
          simp only [hd, ne_eq, not_true_eq_false, if_false] at h
          exact ⟨hd.symm, n, m, hn, hm, by omega⟩
        · left
          simp only [ne_eq, hd, not_false_eq_true, if_true] at h
          omega
      apply List.sorted_cons.2
      refine ⟨?_, ih (fun c hc => hl c (List.mem_cons_of_mem b hc)) hsb.2⟩
      intro c hc
      rcases (List.mem_orderedInsert _).1 hc with hca | hcl
      · rw [hca]; exact hba
      · exact hsb.1 c hcl

/-- The insertion arrangement of assignments whose `start_time` is a number is
in schedule order. -/
theorem sorted_insertionSort_number (l : List Assignment)
    (hl : ∀ b ∈ l, ∃ n, b.start_time = TimeValue.number n) :
    (l.insertionSort (fun a b => sortCompare a b ≤ 0)).Sorted scheduleOrder := by
  induction l with
  | nil => simp
  | cons a l ih =>
    rw [List.insertionSort]
    apply sorted_orderedInsert_number a _ (hl a (List.mem_cons_self a l))
    · intro b hb
      exact hl b (List.mem_cons_of_mem a ((List.perm_insertionSort _ l).subset hb))
    · exact ih (fun b hb => hl b (List.mem_cons_of_mem a hb))

/-- On numbers the comparator is consistent. -/
theorem consistentOn_number (l : List Assignment)
    (hl : ∀ b ∈ l, ∃ n, b.start_time = TimeValue.number n) : consistentOn l = true := by
  unfold consistentOn
  simp only [List.all_eq_true]
  intro a ha b hb c hc
  obtain ⟨m, hm⟩ := hl a ha
  obtain ⟨n, hn⟩ := hl b hb
  obtain ⟨k, hk⟩ := hl c hc
  rw [sortCompare_number a b m n hm hn, sortCompare_number b c n k hn hk,
    sortCompare_number a c m k hm hk]
  simp only [Bool.or_eq_true, Bool.not_eq_true', Bool.and_eq_false_iff, decide_eq_false_iff_not,
    decide_eq_true_eq]
  by_cases h1 : a.dow = b.dow <;> by_cases h2 : b.dow = c.dow <;> by_cases h3 : a.dow = c.dow <;>
    simp only [h1, h2, h3, ne_eq, not_true_eq_false, not_false_eq_true, if_true, if_false] <;>
    omega

/-- On assignments whose `start_time` is a number the sort is fixed by the
standard and gives the schedule order: `dow` ascending and, within a day,
`start_time` ascending. -/
theorem sortAssignments_sorted_number (l : List Assignment)
    (hl : ∀ b ∈ l, ∃ n, b.start_time = TimeValue.number n) :
    ∃ r, sortAssignments l = some r ∧ r.Sorted scheduleOrder := by
  refine ⟨l.insertionSort (fun a b => sortCompare a b ≤ 0), ?_, sorted_insertionSort_number l hl⟩
  unfold sortAssignments
  simp only [consistentOn_number l hl, if_true]

/-- A list that mixes numbers and date-time text within a day: the comparator
is not consistent and the standard does not fix the order. -/
theorem sortAssignments_mixed :
    sortAssignments
      [Assignment.mk 1 (TimeValue.number 3) (TimeValue.number 4) "Cashier", morning,
        Assignment.mk 1 (TimeValue.number 1) (TimeValue.number 2) "Greeter"] = none := by
  decide

/-- C9, the failing input. Two Monday assignments arrive with their times as
date-time text, the one of 14:00 ahead of the one of 09:00. Their difference
is `NaN`, the comparator ties them, and the sort returns them as they came:
14:00 ahead of 09:00. -/
theorem sortAssignments_date_text :
    compareAssignments afternoon morning = none ∧
    compareAssignments morning afternoon = none ∧
    sortAssignments [afternoon, morning] = some [afternoon, morning] := by
  decide

/-! ## C10: the time of day -/

/-- An invalid date is rendered as a question mark. -/
theorem getTimeOnly_invalid (tz : Int) : getTimeOnly tz none = "?" := rfl

/-- C10, the failing input. The times 09:00 and 14:00 (zone of offset 0) are
rendered one hour late, as "10:00a" and "3:00p". -/
theorem getTimeOnly_one_hour_late :
    getHours 0 32400000 = 9 ∧ getMinutes 0 32400000 = 0 ∧
    getTimeOnly 0 (some 32400000) = "10:00a" ∧
    getHours 0 50400000 = 14 ∧ getMinutes 0 50400000 = 0 ∧
    getTimeOnly 0 (some 50400000) = "3:00p" := by
  decide

end VolClock
